import Mathlib

/-!
Shallow embedding of the register-machine / ALU simulation in `script.py`.

Values held in registers and the cache are modelled as rationals (ℚ):
Python integers map to integer rationals, and the true-division operator
`/` maps to exact rational division.  `POW` with a fractional exponent
would produce an irrational (float) value in Python; the embedding marks
that case with a dedicated error value, which no claim exercises.

Errors raised by the Python code are modelled explicitly:
- `Err.invalidRegisterIndex` — the `ValueError("Invalid register index")`
  raised by `load` / `get_register` after their explicit bound check;
- `Err.indexError` — the `IndexError` raised by raw Python list indexing
  in `control_unit` (note Python indexing accepts negative indices down
  to `-len`, aliasing from the end);
- `Err.unknownInstruction` — `ValueError("Unknown instruction: ...")`
  from `_alu_dispatch`;
- `Err.divisionByZero` — `ValueError("Can't divide by zero")` from
  `div` / `mod` (and Python's own `ZeroDivisionError` for `0 ** n`
  with `n < 0`).

Because a Python method can mutate `self` and then raise, every stateful
operation returns the pair of an `Except` result and the post-call state.
-/

namespace ALU

instance {ε α : Type _} [DecidableEq ε] [DecidableEq α] : DecidableEq (Except ε α) := by
  intro x y
  cases x <;> cases y
  case error.error e1 e2 =>
    by_cases h : e1 = e2
    · exact isTrue (by rw [h])
    · exact isFalse (by intro hc; injection hc; exact h (by assumption))
  case error.ok e1 a2 => exact isFalse (by intro hc; exact Except.noConfusion hc)
  case ok.error a1 e2 => exact isFalse (by intro hc; exact Except.noConfusion hc)
  case ok.ok a1 a2 =>
    by_cases h : a1 = a2
    · exact isTrue (by rw [h])
    · exact isFalse (by intro hc; injection hc; exact h (by assumption))

inductive Err where
  | invalidRegisterIndex
  | indexError
  | unknownInstruction
  | divisionByZero
  | typeError
  | nonRationalResult
deriving DecidableEq, Repr

/-- Cache keys are the Python tuples `(instruction, val_a, val_b)`. -/
abbrev CKey := String × ℚ × ℚ

/- Exact rational arithmetic, in an explicitly computable normalized form
(`Rat.add` and friends are `@[irreducible]` in the library, so the machine
is defined over these; the `q*_eq` bridge lemmas below prove each one
equal to the corresponding field operation on ℚ). -/

/-- Computable rational addition. -/
def qadd (a b : ℚ) : ℚ := mkRat (a.num * b.den + b.num * a.den) (a.den * b.den)

/-- Computable rational subtraction. -/
def qsub (a b : ℚ) : ℚ := mkRat (a.num * b.den - b.num * a.den) (a.den * b.den)

/-- Computable rational multiplication. -/
def qmul (a b : ℚ) : ℚ := mkRat (a.num * b.num) (a.den * b.den)

/-- Computable rational inverse (0 for 0, as in ℚ). -/
def qinv (a : ℚ) : ℚ :=
  if 0 ≤ a.num then mkRat a.den a.num.toNat else mkRat (-(a.den : Int)) a.num.natAbs

/-- Computable rational division. -/
def qdiv (a b : ℚ) : ℚ := qmul a (qinv b)

/-- Computable rational natural-number power. -/
def qpowNat (a : ℚ) : Nat → ℚ
  | 0 => 1
  | n + 1 => qmul (qpowNat a n) a

/-- The machine state: `self.registers` (a Python list of 4 numbers) and
`self.cache` (a Python dict, modelled as an association list with unique
keys, insertion at the back, in-place update). -/
structure CPUState where
  registers : List ℚ
  cache : List (CKey × ℚ)
deriving DecidableEq, Repr

/-- `CPU.__init__`: four zeroed registers and an empty cache. -/
def initState : CPUState := ⟨[0, 0, 0, 0], []⟩

/-- Python list index resolution: a negative index `i` means `len + i`;
the access succeeds iff the resolved index is in `[0, len)`. -/
def pyIndex (n : Nat) (i : Int) : Option Nat :=
  let j : Int := if i < 0 then i + n else i
  if 0 ≤ j ∧ j < n then some j.toNat else none

/-- Python `xs[i]` for a list: `none` models `IndexError`. -/
def pyGet (xs : List ℚ) (i : Int) : Option ℚ :=
  (pyIndex xs.length i).map fun k => xs.getD k 0

/-- Python `xs[i] = v` for a list: `none` models `IndexError`. -/
def pySet (xs : List ℚ) (i : Int) (v : ℚ) : Option (List ℚ) :=
  (pyIndex xs.length i).map fun k => xs.set k v

/-- Python dict lookup `cache[key]` / `key in cache`. -/
def cacheLookup (c : List (CKey × ℚ)) (k : CKey) : Option ℚ :=
  match c with
  | [] => none
  | (k1, v) :: rest => if k1 = k then some v else cacheLookup rest k

/-- Python dict assignment `cache[key] = v`: update in place if the key is
present, otherwise append at the back. -/
def cacheInsert (c : List (CKey × ℚ)) (k : CKey) (v : ℚ) : List (CKey × ℚ) :=
  match c with
  | [] => [(k, v)]
  | (k1, v1) :: rest => if k1 = k then (k, v) :: rest else (k1, v1) :: cacheInsert rest k v

/-- Number of entries of the cache holding a given key (a Python dict
always has at most one). -/
def countKey (c : List (CKey × ℚ)) (k : CKey) : Nat :=
  match c with
  | [] => 0
  | (k1, _) :: rest => (if k1 = k then 1 else 0) + countKey rest k

/-- All keys of the association list are distinct (a Python dict
invariant). -/
def keysNodup (c : List (CKey × ℚ)) : Bool :=
  match c with
  | [] => true
  | (k1, _) :: rest => decide (countKey rest k1 = 0) && keysNodup rest

/-- `CPU.load`: explicit bound check `0 <= reg_index < len(self.registers)`,
else `ValueError("Invalid register index")`. -/
def load (s : CPUState) (reg_index : Int) (value : ℚ) : Except Err Unit × CPUState :=
  if 0 ≤ reg_index ∧ reg_index < (s.registers.length : Int) then
    (Except.ok (), { s with registers := s.registers.set reg_index.toNat value })
  else
    (Except.error Err.invalidRegisterIndex, s)

/-- `CPU.get_register`: same bound check as `load`; no state change. -/
def get_register (s : CPUState) (reg_index : Int) : Except Err ℚ :=
  if 0 ≤ reg_index ∧ reg_index < (s.registers.length : Int) then
    Except.ok (s.registers.getD reg_index.toNat 0)
  else
    Except.error Err.invalidRegisterIndex

/-- `CPU.add`: Python `a + b`. -/
def add (a b : ℚ) : ℚ := qadd a b

/-- `CPU.sub`: Python `a - b`. -/
def sub (a b : ℚ) : ℚ := qsub a b

/-- `CPU.mul`: Python `a * b`. -/
def mul (a b : ℚ) : ℚ := qmul a b

/-- `CPU.div`: guard against a zero divisor, then Python true division
`a / b`, which is exact on the modelled (rational) values. -/
def div (a b : ℚ) : Except Err ℚ :=
  if b = 0 then Except.error Err.divisionByZero else Except.ok (qdiv a b)

/-- `CPU.mod`: guard against a zero divisor, then Python `%`, whose value
is `a - b * ⌊a / b⌋` (the remainder takes the sign of `b`). -/
def mod (a b : ℚ) : Except Err ℚ :=
  if b = 0 then Except.error Err.divisionByZero
  else Except.ok (qsub a (qmul b ((⌊qdiv a b⌋ : ℤ) : ℚ)))

/-- `CPU.pow`: Python `a ** b`.  An integral exponent gives an exact
rational power (with `0 ** n`, `n < 0`, raising `ZeroDivisionError`);
a fractional exponent leaves the rational model and is marked
`nonRationalResult` (no claim exercises it). -/
def pow (a b : ℚ) : Except Err ℚ :=
  if b.den = 1 then
    if 0 ≤ b.num then Except.ok (qpowNat a b.num.toNat)
    else if a = 0 then Except.error Err.divisionByZero
    else Except.ok (qinv (qpowNat a (-b.num).toNat))
  else Except.error Err.nonRationalResult

/-- `CPU.logi_and`: Python `a & b`, defined on integers only
(`TypeError` otherwise); on integers it is two's-complement bitwise AND,
which `Int.land` implements. -/
def logi_and (a b : ℚ) : Except Err ℚ :=
  if a.den = 1 ∧ b.den = 1 then Except.ok ((Int.land a.num b.num : ℤ) : ℚ)
  else Except.error Err.typeError

/-- `CPU.logi_or`: Python `a | b`, integers only. -/
def logi_or (a b : ℚ) : Except Err ℚ :=
  if a.den = 1 ∧ b.den = 1 then Except.ok ((Int.lor a.num b.num : ℤ) : ℚ)
  else Except.error Err.typeError

/-- The instruction names `_alu_dispatch` recognises. -/
def supportedInstrs : List String :=
  ["ADD", "SUB", "MUL", "DIV", "MOD", "POW", "AND", "OR"]

/-- `CPU._alu_dispatch`: the if/elif chain routing an instruction name to
its operation, `ValueError("Unknown instruction: ...")` otherwise. -/
def aluDispatch (instruction : String) (a b : ℚ) : Except Err ℚ :=
  if instruction = "ADD" then Except.ok (add a b)
  else if instruction = "SUB" then Except.ok (sub a b)
  else if instruction = "MUL" then Except.ok (mul a b)
  else if instruction = "DIV" then div a b
  else if instruction = "MOD" then mod a b
  else if instruction = "POW" then pow a b
  else if instruction = "AND" then logi_and a b
  else if instruction = "OR" then logi_or a b
  else Except.error Err.unknownInstruction

/-- Step 5 of `CPU.control_unit`: write `result` back to the destination
register (Python raw list assignment, which can raise `IndexError` after
the cache was already updated — hence the cache is part of the post-error
state). -/
def writeBack (s : CPUState) (cache1 : List (CKey × ℚ)) (result : ℚ) (hit : Bool)
    (reg_a_index : Int) (dest_reg_index : Option Int) :
    Except Err (ℚ × Bool) × CPUState :=
  match pySet s.registers (dest_reg_index.getD reg_a_index) result with
  | none => (Except.error Err.indexError, { s with cache := cache1 })
  | some regs1 => (Except.ok (result, hit), ⟨regs1, cache1⟩)

/-- `CPU.control_unit`: fetch the two operand values by raw indexing,
consult the cache (reporting hit or miss as the `Bool` of the result),
dispatch to the ALU on a miss and record the result in the cache, then
write the result to the destination register (defaulting to
`reg_a_index`) and return it. -/
def control_unit (s : CPUState) (instruction : String) (reg_a_index reg_b_index : Int)
    (dest_reg_index : Option Int) : Except Err (ℚ × Bool) × CPUState :=
  match pyGet s.registers reg_a_index with
  | none => (Except.error Err.indexError, s)
  | some val_a =>
    match pyGet s.registers reg_b_index with
    | none => (Except.error Err.indexError, s)
    | some val_b =>
      let cache_key : CKey := (instruction, val_a, val_b)
      match cacheLookup s.cache cache_key with
      | some result => writeBack s s.cache result true reg_a_index dest_reg_index
      | none =>
        match aluDispatch instruction val_a val_b with
        | Except.error e => (Except.error e, s)
        | Except.ok result =>
          writeBack s (cacheInsert s.cache cache_key result) result false
            reg_a_index dest_reg_index

/-- States reachable from a fresh machine by any sequence of `load`,
`get_register` and `control_unit` calls (`get_register` never changes the
state; a failing call still moves to its post-call state). -/
inductive Reachable : CPUState → Prop where
  | init : Reachable initState
  | load (s : CPUState) (i : Int) (v : ℚ) : Reachable s → Reachable (load s i v).2
  | exec (s : CPUState) (instr : String) (a b : Int) (d : Option Int) :
      Reachable s → Reachable (control_unit s instr a b d).2

/-- Every cache entry was produced by a successful ALU dispatch on its own
key. -/
def CacheConsistent (s : CPUState) : Prop :=
  ∀ k v, cacheLookup s.cache k = some v →
    k.1 ∈ supportedInstrs ∧ aluDispatch k.1 k.2.1 k.2.2 = Except.ok v

/- Scenario states of the reference driver (`__main__` block). -/

/-- State after `cpu.load(0, 10)`. -/
def sL1 : CPUState := (load initState 0 10).2

/-- State after `cpu.load(1, 5)`. -/
def sL2 : CPUState := (load sL1 1 5).2

/-- State after `cpu.control_unit("ADD", 0, 1, 2)`. -/
def sE1 : CPUState := (control_unit sL2 "ADD" 0 1 (some 2)).2

/-- State after the repeated `cpu.control_unit("ADD", 0, 1, 2)`. -/
def sE2 : CPUState := (control_unit sE1 "ADD" 0 1 (some 2)).2

/-- State after `cpu.control_unit("MUL", 0, 1, 3)`. -/
def sE3 : CPUState := (control_unit sE2 "MUL" 0 1 (some 3)).2

/-- State after `cpu.control_unit("ADD", 2, 3, 0)`. -/
def sE4 : CPUState := (control_unit sE3 "ADD" 2 3 (some 0)).2

end ALU

namespace ALU

/- Bridge lemmas: the computable arithmetic of the machine agrees with
the field structure of ℚ. -/

theorem qadd_eq (a b : ℚ) : qadd a b = a + b := by
  have ha : (a.den : ℚ) ≠ 0 := by exact_mod_cast a.den_nz
  have hb : (b.den : ℚ) ≠ 0 := by exact_mod_cast b.den_nz
  unfold qadd
  rw [Rat.mkRat_eq_div]
  conv_rhs => rw [← Rat.num_div_den a, ← Rat.num_div_den b]
  rw [div_add_div _ _ ha hb]
  push_cast
  ring_nf

theorem qsub_eq (a b : ℚ) : qsub a b = a - b := by
  have ha : (a.den : ℚ) ≠ 0 := by exact_mod_cast a.den_nz
  have hb : (b.den : ℚ) ≠ 0 := by exact_mod_cast b.den_nz
  unfold qsub
  rw [Rat.mkRat_eq_div]
  conv_rhs => rw [← Rat.num_div_den a, ← Rat.num_div_den b]
  rw [div_sub_div _ _ ha hb]
  push_cast
  ring_nf

theorem qmul_eq (a b : ℚ) : qmul a b = a * b := by
  have ha : (a.den : ℚ) ≠ 0 := by exact_mod_cast a.den_nz
  have hb : (b.den : ℚ) ≠ 0 := by exact_mod_cast b.den_nz
  unfold qmul
  rw [Rat.mkRat_eq_div]
  conv_rhs => rw [← Rat.num_div_den a, ← Rat.num_div_den b]
  rw [div_mul_div_comm]
  push_cast
  ring_nf

theorem qinv_eq (a : ℚ) : qinv a = a⁻¹ := by
  have hstep : qinv a = (a.den : ℚ) / (a.num : ℚ) := by
    unfold qinv
    by_cases h : 0 ≤ a.num
    · rw [if_pos h, Rat.mkRat_eq_div]
      rw [show ((a.num.toNat : ℕ) : ℚ) = ((a.num : ℤ) : ℚ) from by
        rw [← Int.cast_natCast, Int.toNat_of_nonneg h]]
      push_cast
      ring_nf
    · rw [if_neg h, Rat.mkRat_eq_div, Int.cast_natAbs, abs_of_neg (lt_of_not_le h)]
      push_cast
      rw [neg_div_neg_eq]
  rw [hstep]
  conv_rhs => rw [← Rat.num_div_den a]
  rw [inv_div]

theorem qdiv_eq (a b : ℚ) : qdiv a b = a / b := by
  rw [qdiv, qmul_eq, qinv_eq, div_eq_mul_inv]

theorem qpowNat_eq (a : ℚ) (n : Nat) : qpowNat a n = a ^ n := by
  induction n with
  | zero => rw [qpowNat, pow_zero]
  | succ n ih => rw [qpowNat, qmul_eq, ih, pow_succ]

/- Association-list (Python dict) lemmas. -/

theorem cacheLookup_cacheInsert_self (c : List (CKey × ℚ)) (k : CKey) (v : ℚ) :
    cacheLookup (cacheInsert c k v) k = some v := by
  induction c with
  | nil => simp [cacheInsert, cacheLookup]
  | cons p rest ih =>
    obtain ⟨k1, v1⟩ := p
    by_cases h : k1 = k
    · simp [cacheInsert, h, cacheLookup]
    · simp [cacheInsert, h, cacheLookup, ih]

theorem cacheLookup_cacheInsert_ne (c : List (CKey × ℚ)) (k : CKey) (v : ℚ) (k' : CKey)
    (hne : k' ≠ k) : cacheLookup (cacheInsert c k v) k' = cacheLookup c k' := by
  induction c with
  | nil => simp [cacheInsert, cacheLookup, Ne.symm hne]
  | cons p rest ih =>
    obtain ⟨k1, v1⟩ := p
    by_cases h : k1 = k
    · subst h
      simp [cacheInsert, cacheLookup, Ne.symm hne]
    · simp [cacheInsert, h, cacheLookup, ih]

theorem countKey_eq_zero_of_lookup_none (c : List (CKey × ℚ)) (k : CKey)
    (h : cacheLookup c k = none) : countKey c k = 0 := by
  induction c with
  | nil => simp [countKey]
  | cons p rest ih =>
    obtain ⟨k1, v1⟩ := p
    by_cases hk : k1 = k
    · simp [cacheLookup, hk] at h
    · rw [cacheLookup, if_neg hk] at h
      simp [countKey, hk, ih h]

theorem countKey_cacheInsert_self_of_none (c : List (CKey × ℚ)) (k : CKey) (v : ℚ)
    (h : cacheLookup c k = none) : countKey (cacheInsert c k v) k = 1 := by
  induction c with
  | nil => simp [cacheInsert, countKey]
  | cons p rest ih =>
    obtain ⟨k1, v1⟩ := p
    by_cases hk : k1 = k
    · simp [cacheLookup, hk] at h
    · rw [cacheLookup, if_neg hk] at h
      simp [cacheInsert, hk, countKey, ih h]

theorem countKey_of_lookup_some_nodup (c : List (CKey × ℚ)) (k : CKey) (v : ℚ)
    (hnd : keysNodup c = true) (h : cacheLookup c k = some v) : countKey c k = 1 := by
  induction c with
  | nil => simp [cacheLookup] at h
  | cons p rest ih =>
    obtain ⟨k1, v1⟩ := p
    rw [keysNodup, Bool.and_eq_true, decide_eq_true_eq] at hnd
    by_cases hk : k1 = k
    · subst hk
      simp [countKey, hnd.1]
    · rw [cacheLookup, if_neg hk] at h
      simp [countKey, hk, ih hnd.2 h]

/- Characterization lemmas for `control_unit`: builders for each control
path, and eliminators for successful and failing calls. -/

theorem control_unit_errA (s : CPUState) (instr : String) (a b : Int) (d : Option Int)
    (hA : pyGet s.registers a = none) :
    control_unit s instr a b d = (Except.error Err.indexError, s) := by
  unfold control_unit
  rw [hA]

theorem control_unit_errB (s : CPUState) (instr : String) (a b : Int) (d : Option Int)
    (va : ℚ) (hA : pyGet s.registers a = some va) (hB : pyGet s.registers b = none) :
    control_unit s instr a b d = (Except.error Err.indexError, s) := by
  unfold control_unit
  rw [hA]
  dsimp only
  rw [hB]

theorem control_unit_hit (s : CPUState) (instr : String) (a b : Int) (d : Option Int)
    (va vb r : ℚ) (regs1 : List ℚ)
    (hA : pyGet s.registers a = some va) (hB : pyGet s.registers b = some vb)
    (hL : cacheLookup s.cache (instr, va, vb) = some r)
    (hS : pySet s.registers (d.getD a) r = some regs1) :
    control_unit s instr a b d = (Except.ok (r, true), ⟨regs1, s.cache⟩) := by
  unfold control_unit writeBack
  rw [hA]
  dsimp only
  rw [hB]
  dsimp only
  rw [hL]
  dsimp only
  rw [hS]

theorem control_unit_miss (s : CPUState) (instr : String) (a b : Int) (d : Option Int)
    (va vb r : ℚ) (regs1 : List ℚ)
    (hA : pyGet s.registers a = some va) (hB : pyGet s.registers b = some vb)
    (hL : cacheLookup s.cache (instr, va, vb) = none)
    (hD : aluDispatch instr va vb = Except.ok r)
    (hS : pySet s.registers (d.getD a) r = some regs1) :
    control_unit s instr a b d =
      (Except.ok (r, false), ⟨regs1, cacheInsert s.cache (instr, va, vb) r⟩) := by
  unfold control_unit writeBack
  rw [hA]
  dsimp only
  rw [hB]
  dsimp only
  rw [hL]
  dsimp only
  rw [hD]
  dsimp only
  rw [hS]

theorem control_unit_dispatch_err (s : CPUState) (instr : String) (a b : Int) (d : Option Int)
    (va vb : ℚ) (e : Err)
    (hA : pyGet s.registers a = some va) (hB : pyGet s.registers b = some vb)
    (hL : cacheLookup s.cache (instr, va, vb) = none)
    (hD : aluDispatch instr va vb = Except.error e) :
    control_unit s instr a b d = (Except.error e, s) := by
  unfold control_unit writeBack
  rw [hA]
  dsimp only
  rw [hB]
  dsimp only
  rw [hL]
  dsimp only
  rw [hD]

theorem control_unit_ok_elim (s : CPUState) (instr : String) (a b : Int) (d : Option Int)
    (r : ℚ) (h : Bool) (s1 : CPUState)
    (H : control_unit s instr a b d = (Except.ok (r, h), s1)) :
    ∃ va vb regs1, pyGet s.registers a = some va ∧ pyGet s.registers b = some vb ∧
      pySet s.registers (d.getD a) r = some regs1 ∧ s1.registers = regs1 ∧
      ((h = true ∧ cacheLookup s.cache (instr, va, vb) = some r ∧ s1.cache = s.cache) ∨
       (h = false ∧ cacheLookup s.cache (instr, va, vb) = none ∧
         aluDispatch instr va vb = Except.ok r ∧
         s1.cache = cacheInsert s.cache (instr, va, vb) r)) := by
  unfold control_unit writeBack at H
  rcases hA : pyGet s.registers a with _ | va
  · rw [hA] at H
    simp at H
  rw [hA] at H
  dsimp only at H
  rcases hB : pyGet s.registers b with _ | vb
  · rw [hB] at H
    simp at H
  rw [hB] at H
  dsimp only at H
  rcases hL : cacheLookup s.cache (instr, va, vb) with _ | r0
  · rw [hL] at H
    dsimp only at H
    rcases hD : aluDispatch instr va vb with e | r1
    · rw [hD] at H
      simp at H
    rw [hD] at H
    dsimp only at H
    rcases hS : pySet s.registers (d.getD a) r1 with _ | regs1
    · rw [hS] at H
      simp at H
    rw [hS] at H
    dsimp only at H
    injection H with H1 H2
    injection H1 with H1
    injection H1 with Hr Hh
    subst Hr
    subst Hh
    subst H2
    exact ⟨va, vb, regs1, rfl, rfl, hS, rfl, Or.inr ⟨rfl, hL, hD, rfl⟩⟩
  · rw [hL] at H
    dsimp only at H
    rcases hS : pySet s.registers (d.getD a) r0 with _ | regs1
    · rw [hS] at H
      simp at H
    rw [hS] at H
    dsimp only at H
    injection H with H1 H2
    injection H1 with H1
    injection H1 with Hr Hh
    subst Hr
    subst Hh
    subst H2
    exact ⟨va, vb, regs1, rfl, rfl, hS, rfl, Or.inl ⟨rfl, hL, rfl⟩⟩

theorem control_unit_error_elim (s : CPUState) (instr : String) (a b : Int) (d : Option Int)
    (e : Err) (s1 : CPUState)
    (H : control_unit s instr a b d = (Except.error e, s1)) :
    s1.registers = s.registers ∧
    (s1.cache = s.cache ∨
      (e = Err.indexError ∧ ∃ va vb r1, pyGet s.registers a = some va ∧
        pyGet s.registers b = some vb ∧ cacheLookup s.cache (instr, va, vb) = none ∧
        aluDispatch instr va vb = Except.ok r1 ∧ pySet s.registers (d.getD a) r1 = none ∧
        s1.cache = cacheInsert s.cache (instr, va, vb) r1)) := by
  unfold control_unit writeBack at H
  rcases hA : pyGet s.registers a with _ | va
  · rw [hA] at H
    injection H with H1 H2
    subst H2
    exact ⟨rfl, Or.inl rfl⟩
  rw [hA] at H
  dsimp only at H
  rcases hB : pyGet s.registers b with _ | vb
  · rw [hB] at H
    injection H with H1 H2
    subst H2
    exact ⟨rfl, Or.inl rfl⟩
  rw [hB] at H
  dsimp only at H
  rcases hL : cacheLookup s.cache (instr, va, vb) with _ | r0
  · rw [hL] at H
    dsimp only at H
    rcases hD : aluDispatch instr va vb with e1 | r1
    · rw [hD] at H
      dsimp only at H
      injection H with H1 H2
      injection H1 with H1
      subst H1
      subst H2
      exact ⟨rfl, Or.inl rfl⟩
    rw [hD] at H
    dsimp only at H
    rcases hS : pySet s.registers (d.getD a) r1 with _ | regs1
    · rw [hS] at H
      dsimp only at H
      injection H with H1 H2
      injection H1 with H1
      subst H1
      subst H2
      exact ⟨rfl, Or.inr ⟨rfl, va, vb, r1, rfl, rfl, hL, hD, hS, rfl⟩⟩
    · rw [hS] at H
      simp at H
  · rw [hL] at H
    dsimp only at H
    rcases hS : pySet s.registers (d.getD a) r0 with _ | regs1
    · rw [hS] at H
      dsimp only at H
      injection H with H1 H2
      subst H2
      exact ⟨rfl, Or.inl rfl⟩
    · rw [hS] at H
      simp at H

/-- C3: determinism/idempotence of `execute`: if a call of `control_unit`
succeeds from state `s` with result `r` and post state `s1`, then running
the same call again with the same register contents (and the cache as the
first call left it) returns the same result `r`, is reported as a cache
hit, and produces the same final state `s1` — in particular the same
final register state. -/
theorem c3_execute_idempotent (s : CPUState) (instr : String) (a b : Int) (d : Option Int)
    (r : ℚ) (h : Bool) (s1 : CPUState)
    (H : control_unit s instr a b d = (Except.ok (r, h), s1)) :
    control_unit ⟨s.registers, s1.cache⟩ instr a b d = (Except.ok (r, true), s1) := by
  obtain ⟨va, vb, regs1, hA, hB, hS, hregs, hcase⟩ := control_unit_ok_elim s instr a b d r h s1 H
  have hL1 : cacheLookup s1.cache (instr, va, vb) = some r := by
    rcases hcase with ⟨_, hL, hc⟩ | ⟨_, hL, hD, hc⟩
    · rw [hc]
      exact hL
    · rw [hc]
      exact cacheLookup_cacheInsert_self s.cache (instr, va, vb) r
  have := control_unit_hit ⟨s.registers, s1.cache⟩ instr a b d va vb r regs1 hA hB hL1 hS
  rw [this]
  have hs1 : s1 = ⟨regs1, s1.cache⟩ := by
    cases s1
    simp at hregs
    rw [hregs]
  rw [← hs1]

theorem control_unit_hit_destfail (s : CPUState) (instr : String) (a b : Int)
    (d : Option Int) (va vb r : ℚ)
    (hA : pyGet s.registers a = some va) (hB : pyGet s.registers b = some vb)
    (hL : cacheLookup s.cache (instr, va, vb) = some r)
    (hS : pySet s.registers (d.getD a) r = none) :
    control_unit s instr a b d = (Except.error Err.indexError, s) := by
  unfold control_unit writeBack
  rw [hA]
  dsimp only
  rw [hB]
  dsimp only
  rw [hL]
  dsimp only
  rw [hS]

theorem control_unit_miss_destfail (s : CPUState) (instr : String) (a b : Int)
    (d : Option Int) (va vb r : ℚ)
    (hA : pyGet s.registers a = some va) (hB : pyGet s.registers b = some vb)
    (hL : cacheLookup s.cache (instr, va, vb) = none)
    (hD : aluDispatch instr va vb = Except.ok r)
    (hS : pySet s.registers (d.getD a) r = none) :
    control_unit s instr a b d =
      (Except.error Err.indexError, ⟨s.registers, cacheInsert s.cache (instr, va, vb) r⟩) := by
  unfold control_unit writeBack
  rw [hA]
  dsimp only
  rw [hB]
  dsimp only
  rw [hL]
  dsimp only
  rw [hD]
  dsimp only
  rw [hS]

/- Dispatch lemmas. -/

theorem mem_supported_of_dispatch_ok (instr : String) (a b r : ℚ)
    (h : aluDispatch instr a b = Except.ok r) : instr ∈ supportedInstrs := by
  unfold aluDispatch at h
  split_ifs at h <;> simp_all [supportedInstrs]

theorem dispatch_unknown_of_not_mem (instr : String) (a b : ℚ)
    (h : instr ∉ supportedInstrs) :
    aluDispatch instr a b = Except.error Err.unknownInstruction := by
  unfold aluDispatch
  split_ifs <;> simp_all [supportedInstrs]

theorem div_mod_dispatch_zero (instr : String) (va : ℚ)
    (hinstr : instr = "DIV" ∨ instr = "MOD") :
    aluDispatch instr va 0 = Except.error Err.divisionByZero := by
  rcases hinstr with h | h <;> subst h <;> simp [aluDispatch, div, mod]

theorem div_mod_dispatch_nonzero (instr : String) (va vb : ℚ)
    (hinstr : instr = "DIV" ∨ instr = "MOD") (hvb : vb ≠ 0) :
    ∃ r, aluDispatch instr va vb = Except.ok r := by
  rcases hinstr with h | h <;> subst h <;> simp [aluDispatch, div, mod, hvb]

/-- The reachability invariant behind C10, also used to settle C4 and C7:
every cache entry of a reachable state records a successful dispatch. -/
theorem reachable_cache_consistent (s : CPUState) (h : Reachable s) : CacheConsistent s := by
  induction h with
  | init =>
    intro k v hkv
    simp [initState, cacheLookup] at hkv
  | load s0 i v hr ih =>
    intro k v1 hkv
    have hc : (load s0 i v).2.cache = s0.cache := by
      rw [load]
      by_cases hb : 0 ≤ i ∧ i < (s0.registers.length : Int)
      · rw [if_pos hb]
      · rw [if_neg hb]
    rw [hc] at hkv
    exact ih k v1 hkv
  | exec s0 instr a b d hr ih =>
    intro k v hkv
    rcases hP : control_unit s0 instr a b d with ⟨res, s2⟩
    rw [hP] at hkv
    dsimp only at hkv
    rcases res with e | rh
    · obtain ⟨_, hcache⟩ := control_unit_error_elim s0 instr a b d e s2 hP
      rcases hcache with hc | ⟨_, va, vb, r1, _, _, _, hD2, _, hc⟩
      · rw [hc] at hkv
        exact ih k v hkv
      · rw [hc] at hkv
        by_cases hk : k = (instr, va, vb)
        · subst hk
          rw [cacheLookup_cacheInsert_self] at hkv
          injection hkv with hv
          subst hv
          exact ⟨mem_supported_of_dispatch_ok instr va vb r1 hD2, hD2⟩
        · rw [cacheLookup_cacheInsert_ne _ _ _ _ hk] at hkv
          exact ih k v hkv
    · obtain ⟨r, hbit⟩ := rh
      obtain ⟨va, vb, regs1, _, _, _, _, hcase⟩ :=
        control_unit_ok_elim s0 instr a b d r hbit s2 hP
      rcases hcase with ⟨_, _, hc⟩ | ⟨_, _, hD2, hc⟩
      · rw [hc] at hkv
        exact ih k v hkv
      · rw [hc] at hkv
        by_cases hk : k = (instr, va, vb)
        · subst hk
          rw [cacheLookup_cacheInsert_self] at hkv
          injection hkv with hv
          subst hv
          exact ⟨mem_supported_of_dispatch_ok instr va vb r hD2, hD2⟩
        · rw [cacheLookup_cacheInsert_ne _ _ _ _ hk] at hkv
          exact ih k v hkv

/-- C10: implicit cache-consistency invariant: in every machine state
reachable from a fresh machine by `load`, `get_register` and
`control_unit` calls, every cache entry has a key whose instruction is
one of the eight dispatched op-codes and whose stored value equals the
result of applying that instruction's operation to the key's operand
values. -/
theorem c10_cache_invariant (s : CPUState) (h : Reachable s) : CacheConsistent s :=
  reachable_cache_consistent s h

/-- Witness for C10 at a concrete reachable state (the scenario state
after `load(0,10); load(1,5); execute("ADD",0,1,2)`). -/
theorem c10_cache_invariant_witness :
    "ADD" ∈ supportedInstrs ∧ aluDispatch "ADD" 10 5 = Except.ok 15 :=
  c10_cache_invariant sE1
    (Reachable.exec sL2 "ADD" 0 1 (some 2)
      (Reachable.load sL1 1 5 (Reachable.load initState 0 10 Reachable.init)))
    ("ADD", 10, 5) 15 (by decide)

/-- C7: for every instruction name outside the supported set
`{ADD, SUB, MUL, DIV, MOD, POW, AND, OR}`, `execute` on a reachable state
(with in-range operand registers) fails with the unknown-instruction
error and leaves the whole state — registers and cache — unchanged. -/
theorem c7_unknown_instruction (s : CPUState) (hreach : Reachable s) (instr : String)
    (a b : Int) (d : Option Int) (va vb : ℚ)
    (hA : pyGet s.registers a = some va) (hB : pyGet s.registers b = some vb)
    (hni : instr ∉ supportedInstrs) :
    control_unit s instr a b d = (Except.error Err.unknownInstruction, s) := by
  have hL : cacheLookup s.cache (instr, va, vb) = none := by
    rcases hLk : cacheLookup s.cache (instr, va, vb) with _ | v
    · rfl
    · exact absurd (reachable_cache_consistent s hreach (instr, va, vb) v hLk).1 hni
  exact control_unit_dispatch_err s instr a b d va vb Err.unknownInstruction hA hB hL
    (dispatch_unknown_of_not_mem instr va vb hni)

/-- Witness for C7: `execute("FOO", 0, 1)` on a fresh machine. -/
theorem c7_unknown_instruction_witness :
    control_unit initState "FOO" 0 1 none = (Except.error Err.unknownInstruction, initState) :=
  c7_unknown_instruction initState Reachable.init "FOO" 0 1 none 0 0
    (by decide) (by decide) (by decide)

/-- Witness for C3: repeating the scenario call `execute("ADD",0,1,2)`
after its first run is a hit with the same result and state. -/
theorem c3_execute_idempotent_witness :
    control_unit ⟨sL2.registers, sE1.cache⟩ "ADD" 0 1 (some 2) = (Except.ok (15, true), sE1) :=
  c3_execute_idempotent sL2 "ADD" 0 1 (some 2) 15 false sE1 (by decide)

/-- C4: `execute` with instruction DIV or MOD on a reachable state fails
with the division-by-zero error exactly when the fetched value of `regB`
is 0; the failure leaves the whole state (registers and cache) unchanged,
so no cache entry is created for the failing key. -/
theorem c4_division_by_zero (s : CPUState) (hreach : Reachable s) (instr : String)
    (a b : Int) (d : Option Int) (va vb : ℚ)
    (hinstr : instr = "DIV" ∨ instr = "MOD")
    (hA : pyGet s.registers a = some va) (hB : pyGet s.registers b = some vb) :
    (vb = 0 → control_unit s instr a b d = (Except.error Err.divisionByZero, s)) ∧
    (vb ≠ 0 → (control_unit s instr a b d).1 ≠ Except.error Err.divisionByZero) := by
  constructor
  · intro hvb
    subst hvb
    have hD : aluDispatch instr va 0 = Except.error Err.divisionByZero :=
      div_mod_dispatch_zero instr va hinstr
    have hL : cacheLookup s.cache (instr, va, 0) = none := by
      rcases hLk : cacheLookup s.cache (instr, va, 0) with _ | v
      · rfl
      · have := (reachable_cache_consistent s hreach (instr, va, 0) v hLk).2
        rw [hD] at this
        exact Except.noConfusion this
    exact control_unit_dispatch_err s instr a b d va 0 Err.divisionByZero hA hB hL hD
  · intro hvb
    rcases hLk : cacheLookup s.cache (instr, va, vb) with _ | r0
    · obtain ⟨r, hD⟩ := div_mod_dispatch_nonzero instr va vb hinstr hvb
      rcases hS : pySet s.registers (d.getD a) r with _ | regs1
      · rw [control_unit_miss_destfail s instr a b d va vb r hA hB hLk hD hS]
        simp
      · rw [control_unit_miss s instr a b d va vb r regs1 hA hB hLk hD hS]
        simp
    · rcases hS : pySet s.registers (d.getD a) r0 with _ | regs1
      · rw [control_unit_hit_destfail s instr a b d va vb r0 hA hB hLk hS]
        simp
      · rw [control_unit_hit s instr a b d va vb r0 regs1 hA hB hLk hS]
        simp

/-- Witness for C4: `execute("DIV", 0, 1)` on a fresh machine divides by
the zero in register 1 and fails without touching the state. -/
theorem c4_division_by_zero_witness :
    control_unit initState "DIV" 0 1 none = (Except.error Err.divisionByZero, initState) :=
  (c4_division_by_zero initState Reachable.init "DIV" 0 1 none 0 0 (Or.inl rfl)
    (by decide) (by decide)).1 rfl

/-- C6: cache correctness and frame: after any successful `execute` whose
fetched operand values are `va` and `vb`, the cache holds exactly one
entry for the key `(instruction, va, vb)` (given the dict invariant that
keys are unique), that entry's value is the returned result, and the
entry of every other key is unchanged by the call. -/
theorem c6_cache_correctness (s : CPUState) (instr : String) (a b : Int) (d : Option Int)
    (r : ℚ) (h : Bool) (s1 : CPUState) (va vb : ℚ)
    (H : control_unit s instr a b d = (Except.ok (r, h), s1))
    (hA : pyGet s.registers a = some va) (hB : pyGet s.registers b = some vb)
    (hnd : keysNodup s.cache = true) :
    cacheLookup s1.cache (instr, va, vb) = some r ∧
    countKey s1.cache (instr, va, vb) = 1 ∧
    ∀ k, k ≠ (instr, va, vb) → cacheLookup s1.cache k = cacheLookup s.cache k := by
  obtain ⟨va1, vb1, regs1, hA1, hB1, hS1, hregs, hcase⟩ :=
    control_unit_ok_elim s instr a b d r h s1 H
  rw [hA] at hA1
  rw [hB] at hB1
  injection hA1 with hva
  injection hB1 with hvb
  subst hva
  subst hvb
  rcases hcase with ⟨_, hL, hc⟩ | ⟨_, hL, hD, hc⟩
  · refine ⟨by rw [hc]; exact hL, ?_, ?_⟩
    · rw [hc]
      exact countKey_of_lookup_some_nodup s.cache (instr, va, vb) r hnd hL
    · intro k hk
      rw [hc]
  · refine ⟨by rw [hc]; exact cacheLookup_cacheInsert_self s.cache (instr, va, vb) r, ?_, ?_⟩
    · rw [hc]
      exact countKey_cacheInsert_self_of_none s.cache (instr, va, vb) r hL
    · intro k hk
      rw [hc]
      exact cacheLookup_cacheInsert_ne s.cache (instr, va, vb) r k hk

/-- Witness for C6 at the scenario's first `execute("ADD",0,1,2)`. -/
theorem c6_cache_correctness_witness :
    cacheLookup sE1.cache ("ADD", 10, 5) = some 15 ∧
    countKey sE1.cache ("ADD", 10, 5) = 1 :=
  have h := c6_cache_correctness sL2 "ADD" 0 1 (some 2) 15 false sE1 10 5
    (by decide) (by decide) (by decide) (by decide)
  ⟨h.1, h.2.1⟩

/-- C8: destination default and frame: a successful `execute` writes its
result exactly at the resolved destination slot — register `regA` when no
explicit destination is supplied — and every other register keeps its
value. -/
theorem c8_destination_default (s : CPUState) (instr : String) (a b : Int) (d : Option Int)
    (r : ℚ) (h : Bool) (s1 : CPUState)
    (H : control_unit s instr a b d = (Except.ok (r, h), s1)) (ha : 0 ≤ a) :
    ∃ t, pyIndex s.registers.length (d.getD a) = some t ∧
      s1.registers = s.registers.set t r ∧
      (d = none → t = a.toNat) ∧
      ∀ j, j ≠ t → s1.registers[j]? = s.registers[j]? := by
  obtain ⟨va, vb, regs1, hA, hB, hS, hregs, _⟩ :=
    control_unit_ok_elim s instr a b d r h s1 H
  rcases ht : pyIndex s.registers.length (d.getD a) with _ | t
  · rw [pySet, ht] at hS
    simp at hS
  · rw [pySet, ht] at hS
    simp only [Option.map_some', Option.some.injEq] at hS
    refine ⟨t, rfl, ?_, ?_, ?_⟩
    · rw [hregs, ← hS]
    · intro hd
      subst hd
      simp only [Option.getD_none] at ht
      rw [pyIndex] at ht
      rw [if_neg (not_lt.mpr ha)] at ht
      by_cases hcond : 0 ≤ a ∧ a < (s.registers.length : Int)
      · rw [if_pos hcond] at ht
        injection ht with ht
        exact ht.symm
      · rw [if_neg hcond] at ht
        exact Option.noConfusion ht
    · intro j hj
      rw [hregs, ← hS]
      exact List.getElem?_set_ne (Ne.symm hj)

/-- Witness for C8 at `execute("ADD", 0, 1)` (implicit destination) on
the loaded scenario state. -/
theorem c8_destination_default_witness :
    ∃ t, pyIndex sL2.registers.length ((none : Option Int).getD 0) = some t ∧
      (control_unit sL2 "ADD" 0 1 none).2.registers = sL2.registers.set t 15 ∧
      ((none : Option Int) = none → t = (0 : Int).toNat) ∧
      ∀ j, j ≠ t → (control_unit sL2 "ADD" 0 1 none).2.registers[j]? = sL2.registers[j]? :=
  c8_destination_default sL2 "ADD" 0 1 none 15 false
    (control_unit sL2 "ADD" 0 1 none).2 (by decide) (by decide)

/-- C9: DIV semantics are real-valued: for every pair of operands with a
nonzero divisor, the DIV operation returns the exact quotient `a / b` in
ℚ — true division, never a truncating integer division: in particular
`div 7 2` is `7/2` (= 3.5) and not `3`. -/
theorem c9_div_real_valued (a b : ℚ) (hb : b ≠ 0) :
    div a b = Except.ok (a / b) ∧ div 7 2 = Except.ok (7 / 2) ∧ div 7 2 ≠ Except.ok 3 := by
  refine ⟨?_, ?_, ?_⟩
  · rw [div, if_neg hb, qdiv_eq]
  · rw [div, if_neg (by norm_num : (2 : ℚ) ≠ 0), qdiv_eq]
  · rw [div, if_neg (by norm_num : (2 : ℚ) ≠ 0), qdiv_eq]
    intro hc
    injection hc with hc
    norm_num at hc

/-- Witness for C9 at `7 / 2`. -/
theorem c9_div_real_valued_witness :
    div 7 2 = Except.ok ((7 : ℚ) / 2) ∧ div 7 2 ≠ Except.ok 3 :=
  have h := c9_div_real_valued 7 2 (by decide)
  ⟨h.1, h.2.2⟩

/-- C2 counterexample: the claim says `execute` fails for register index
`-1`, but `control_unit` uses raw Python list indexing, for which `-1`
aliases the last register: on a fresh machine `execute("ADD", -1, 0)`
succeeds (returning 0 as a miss) instead of failing. -/
theorem c2_range_validation_counterexample :
    (control_unit initState "ADD" (-1) 0 none).1 = Except.ok (0, false) := by
  decide

/-- C2 amended: `load` and `read` fail with the invalid-register-index
error for every index outside [0,4) and succeed for 0..3; `execute`,
which validates nothing and indexes the register list directly, fails
with `IndexError` when an operand index is outside [-4,4), while negative
indices in [-4,-1] alias registers from the end (so index `-1` succeeds,
contrary to the original claim). -/
theorem c2_range_validation_amended (s : CPUState) (h4 : s.registers.length = 4) :
    (∀ i v, ¬(0 ≤ i ∧ i < 4) → load s i v = (Except.error Err.invalidRegisterIndex, s)) ∧
    (∀ i v, 0 ≤ i → i < 4 → (load s i v).1 = Except.ok ()) ∧
    (∀ i, ¬(0 ≤ i ∧ i < 4) → get_register s i = Except.error Err.invalidRegisterIndex) ∧
    (∀ i, 0 ≤ i → i < 4 → get_register s i = Except.ok (s.registers.getD i.toNat 0)) ∧
    (∀ instr a b d, a < -4 ∨ 4 ≤ a →
      control_unit s instr a b d = (Except.error Err.indexError, s)) ∧
    (∀ instr a b d va, pyGet s.registers a = some va → b < -4 ∨ 4 ≤ b →
      control_unit s instr a b d = (Except.error Err.indexError, s)) ∧
    (∀ i, -4 ≤ i → i < 4 → ∃ va, pyGet s.registers i = some va) ∧
    (control_unit initState "ADD" (-1) 0 none).1 = Except.ok (0, false) := by
  have hlen : (s.registers.length : Int) = 4 := by
    rw [h4]
    rfl
  have hget_none : ∀ i : Int, i < -4 ∨ 4 ≤ i → pyGet s.registers i = none := by
    intro i hi
    rw [pyGet, pyIndex, h4]
    rcases hi with hi | hi
    · rw [if_pos (by omega : i < 0), if_neg (by push_cast; omega)]
      rfl
    · rw [if_neg (by omega : ¬ i < 0), if_neg (by push_cast; omega)]
      rfl
  refine ⟨?_, ?_, ?_, ?_, ?_, ?_, ?_, by decide⟩
  · intro i v hiv
    rw [load, if_neg (by rw [hlen]; exact hiv)]
  · intro i v hi hlt
    rw [load, if_pos ⟨hi, by rw [hlen]; exact hlt⟩]
  · intro i hiv
    rw [get_register, if_neg (by rw [hlen]; exact hiv)]
  · intro i hi hlt
    rw [get_register, if_pos ⟨hi, by rw [hlen]; exact hlt⟩]
  · intro instr a b d ha
    exact control_unit_errA s instr a b d (hget_none a ha)
  · intro instr a b d va hva hb
    exact control_unit_errB s instr a b d va hva (hget_none b hb)
  · intro i hge hlt
    rw [pyGet, pyIndex, h4]
    by_cases hneg : i < 0
    · rw [if_pos hneg, if_pos (by push_cast; omega)]
      exact ⟨_, rfl⟩
    · rw [if_neg hneg, if_pos (by push_cast; omega)]
      exact ⟨_, rfl⟩

/-- Witness for the amended C2: `load(4, 99)` fails without mutation on a
fresh machine. -/
theorem c2_range_validation_amended_witness :
    load initState 4 99 = (Except.error Err.invalidRegisterIndex, initState) :=
  (c2_range_validation_amended initState rfl).1 4 99 (by decide)

/-- C5 counterexample: the claim says a failing `execute` never mutates
the cache, but when the destination index is out of range the cache entry
computed for the miss is inserted before the write-back fails: on a fresh
machine `execute("ADD", 0, 1, 4)` fails with `IndexError` yet leaves
`{(ADD,0,0): 0}` in the cache. -/
theorem c5_atomicity_counterexample :
    (control_unit initState "ADD" 0 1 (some 4)).1 = Except.error Err.indexError ∧
    (control_unit initState "ADD" 0 1 (some 4)).2.cache ≠ initState.cache := by
  decide

/-- C5 amended: a failing `load` (or `read`, which never mutates) leaves
the state unchanged, and a failing `execute` never mutates the register
file; the cache too is unchanged, except in one case: a cache-miss
`execute` whose destination register index is out of range inserts the
freshly computed entry before the write-back raises `IndexError`. -/
theorem c5_failure_atomicity_amended (s : CPUState) :
    (∀ i v e, (load s i v).1 = Except.error e → (load s i v).2 = s) ∧
    (∀ instr a b d e s1, control_unit s instr a b d = (Except.error e, s1) →
      s1.registers = s.registers ∧
      (s1.cache = s.cache ∨
        (e = Err.indexError ∧ ∃ va vb r1, pyGet s.registers a = some va ∧
          pyGet s.registers b = some vb ∧ cacheLookup s.cache (instr, va, vb) = none ∧
          aluDispatch instr va vb = Except.ok r1 ∧ pySet s.registers (d.getD a) r1 = none ∧
          s1.cache = cacheInsert s.cache (instr, va, vb) r1))) := by
  constructor
  · intro i v e hE
    rw [load] at hE ⊢
    by_cases hc : 0 ≤ i ∧ i < (s.registers.length : Int)
    · rw [if_pos hc] at hE
      exact Except.noConfusion hE
    · rw [if_neg hc]
  · intro instr a b d e s1 H
    exact control_unit_error_elim s instr a b d e s1 H

/-- Witness for the amended C5: a failing `load` on a fresh machine
leaves the state unchanged. -/
theorem c5_failure_atomicity_amended_witness :
    (load initState 9 1).2 = initState :=
  (c5_failure_atomicity_amended initState).1 9 1 Err.invalidRegisterIndex (by decide)

/-- C1: the canonical end-to-end scenario: from a fresh machine,
`load(0,10); load(1,5)` gives registers `[10,5,0,0]`; `ADD 0 1 → 2`
returns 15 as a miss, registers `[10,5,15,0]`, cache `{(ADD,10,5): 15}`;
repeating it returns 15 as a hit with registers unchanged; `MUL 0 1 → 3`
returns 50 giving `[10,5,15,50]`; `ADD 2 3 → 0` returns 65 giving
`[65,5,15,50]`. -/
theorem c1_end_to_end_scenario :
    initState.registers = [0, 0, 0, 0] ∧
    sL2.registers = [10, 5, 0, 0] ∧
    control_unit sL2 "ADD" 0 1 (some 2) = (Except.ok (15, false), sE1) ∧
    sE1.registers = [10, 5, 15, 0] ∧
    sE1.cache = [(("ADD", 10, 5), 15)] ∧
    control_unit sE1 "ADD" 0 1 (some 2) = (Except.ok (15, true), sE2) ∧
    sE2.registers = sE1.registers ∧
    control_unit sE2 "MUL" 0 1 (some 3) = (Except.ok (50, false), sE3) ∧
    sE3.registers = [10, 5, 15, 50] ∧
    control_unit sE3 "ADD" 2 3 (some 0) = (Except.ok (65, false), sE4) ∧
    sE4.registers = [65, 5, 15, 50] := by
  decide

end ALU
